import Mathlib

/-!
Verification development for the asynchronous chunk-generation subsystem of
the cuberite repository (src/source/cChunkGenerator.h, src/source/cRoot.h).

The sources contain the strategy interfaces (cBiomeGen, cTerrainHeightGen,
cTerrainCompositionGen, cStructureGen, cFinishGen) and the cChunkGenerator
class declaration with documentation comments; the method bodies and
ChunkDef.h are not present, so those parts are modelled from the
specification, faithful to its words.  Mutable C++ reference parameters of
the strategy entry points become components of the returned tuple; const
reference parameters are inputs only, exactly mirroring the header
signatures.
-/

namespace Cuberite

/-- Biome enumeration values (EMCSBiome), modelled as integers. -/
abbrev EMCSBiome := Int

/-- Block type values (BLOCKTYPE). -/
abbrev BLOCKTYPE := Nat

/-- Block metadata nibble values (NIBBLETYPE). -/
abbrev NIBBLETYPE := Nat

/-- The air block type constant. -/
def E_BLOCK_AIR : BLOCKTYPE := 0

/-- The stone block type constant. -/
def E_BLOCK_STONE : BLOCKTYPE := 1

namespace cChunkDef

/-- Modelled from the spec: ChunkDef.h is not in the sources; the chunk is a
fixed-size volume of width x depth x height voxels.  Chunk width. -/
def Width : Nat := 16

/-- Modelled from the spec: chunk height (vertical extent of the volume). -/
def Height : Nat := 128

/-- Number of horizontal columns of one chunk (width x depth). -/
def NumColumns : Nat := Width * Width

/-- Number of voxels of one chunk (width x depth x height). -/
def NumBlocks : Nat := Width * Width * Height

/-- Modelled from the spec: BiomeMap, one biome value per horizontal column. -/
abbrev BiomeMap := Fin NumColumns → EMCSBiome

/-- Modelled from the spec: HeightMap, one height per horizontal column. -/
abbrev HeightMap := Fin NumColumns → Nat

/-- Modelled from the spec: BlockTypes, one entry per voxel of the full
volume.  `none` is the sentinel for a voxel that has not been given a value
yet (uninitialized array storage in the C++ source). -/
abbrev BlockTypes := Fin NumBlocks → Option BLOCKTYPE

/-- Modelled from the spec: BlockNibbles (block metadata), one entry per
voxel of the full volume, with the same `none` sentinel. -/
abbrev BlockNibbles := Fin NumBlocks → Option NIBBLETYPE

end cChunkDef

/-- Entity descriptors attached to a chunk; their content is irrelevant to
the orchestration contract, only the list structure matters. -/
abbrev cEntityList := List Nat

/-- Block entity descriptors attached to a chunk. -/
abbrev cBlockEntityList := List Nat

/-- The x coordinate of a voxel index inside the chunk volume. -/
def xOfIndex (i : Fin cChunkDef.NumBlocks) : Nat := i.val % 16

/-- The z coordinate of a voxel index inside the chunk volume. -/
def zOfIndex (i : Fin cChunkDef.NumBlocks) : Nat := (i.val / 16) % 16

/-- The y (vertical) coordinate of a voxel index inside the chunk volume. -/
def yOfIndex (i : Fin cChunkDef.NumBlocks) : Nat := i.val / 256

/-- The horizontal column holding a given voxel index. -/
def columnOfIndex (i : Fin cChunkDef.NumBlocks) : Fin cChunkDef.NumColumns :=
  ⟨xOfIndex i + 16 * zOfIndex i, by
    have h1 : i.val % 16 < 16 := Nat.mod_lt _ (by decide)
    have h2 : (i.val / 16) % 16 < 16 := Nat.mod_lt _ (by decide)
    show i.val % 16 + 16 * ((i.val / 16) % 16) < 256
    omega⟩

/-- The interface that a biome generator must implement (cBiomeGen):
`GenBiomes(a_ChunkX, a_ChunkZ, a_BiomeMap &)` fills the biome map for the
given chunk; the output reference parameter becomes the return value. -/
structure cBiomeGen where
  GenBiomes : Int → Int → cChunkDef.BiomeMap

/-- The interface that a terrain height generator must implement
(cTerrainHeightGen): `GenHeightMap(a_ChunkX, a_ChunkZ, a_HeightMap &)`. -/
structure cTerrainHeightGen where
  GenHeightMap : Int → Int → cChunkDef.HeightMap

/-- The interface that a terrain composition generator must implement
(cTerrainCompositionGen).  `ComposeTerrain` receives the block type and meta
grids and the entity lists by mutable reference (so they appear in the
result tuple) and the height map by const reference (input only), exactly
as in the header. -/
structure cTerrainCompositionGen where
  ComposeTerrain : Int → Int → cChunkDef.BlockTypes → cChunkDef.BlockNibbles →
    cChunkDef.HeightMap → cEntityList → cBlockEntityList →
    cChunkDef.BlockTypes × cChunkDef.BlockNibbles × cEntityList × cBlockEntityList

/-- The interface that a structure generator must implement (cStructureGen).
`GenStructures` receives block grids, height map and entity lists all by
mutable reference, so all of them appear in the result tuple. -/
structure cStructureGen where
  GenStructures : Int → Int → cChunkDef.BlockTypes → cChunkDef.BlockNibbles →
    cChunkDef.HeightMap → cEntityList → cBlockEntityList →
    cChunkDef.BlockTypes × cChunkDef.BlockNibbles × cChunkDef.HeightMap ×
      cEntityList × cBlockEntityList

/-- The interface that a finisher must implement (cFinishGen).  `GenFinish`
receives block grids, height map and entity lists by mutable reference and
the biome map by const reference (input only). -/
structure cFinishGen where
  GenFinish : Int → Int → cChunkDef.BlockTypes → cChunkDef.BlockNibbles →
    cChunkDef.HeightMap → cChunkDef.BiomeMap → cEntityList → cBlockEntityList →
    cChunkDef.BlockTypes × cChunkDef.BlockNibbles × cChunkDef.HeightMap ×
      cEntityList × cBlockEntityList

/-- A queued generation request (cChunkCoords): chunk x, y, z coordinates. -/
structure cChunkCoords where
  m_ChunkX : Int
  m_ChunkY : Int
  m_ChunkZ : Int
deriving DecidableEq

/-- The chunk generator's composition and seed (the Pipeline Configuration
part of cChunkGenerator's state: m_BiomeGen, m_HeightGen, m_CompositionGen,
m_StructureGens, m_FinishGens, m_Seed). -/
structure cChunkGenerator where
  m_BiomeGen : cBiomeGen
  m_HeightGen : cTerrainHeightGen
  m_CompositionGen : cTerrainCompositionGen
  m_StructureGens : List cStructureGen
  m_FinishGens : List cFinishGen
  m_Seed : Int

/-- The per-run generation state: the voxel buffers of one chunk being
generated, and the completed chunk artifact handed to the world. -/
structure ChunkData where
  m_BlockTypes : cChunkDef.BlockTypes
  m_BlockMeta : cChunkDef.BlockNibbles
  m_BiomeMap : cChunkDef.BiomeMap
  m_HeightMap : cChunkDef.HeightMap
  m_Entities : cEntityList
  m_BlockEntities : cBlockEntityList

/-- The per-run buffers before any stage ran: block grids hold the `none`
sentinel everywhere, maps are zeroed, entity lists empty. -/
def initChunkData : ChunkData :=
  ⟨fun _ => none, fun _ => none, fun _ => 0, fun _ => 0, [], []⟩

/-- Pipeline step 1: the biome stage writes the biome map. -/
def cChunkGenerator.biomeStage (g : cChunkGenerator) (x z : Int) (s : ChunkData) : ChunkData :=
  { s with m_BiomeMap := g.m_BiomeGen.GenBiomes x z }

/-- Pipeline step 2: the height stage writes the height map. -/
def cChunkGenerator.heightStage (g : cChunkGenerator) (x z : Int) (s : ChunkData) : ChunkData :=
  { s with m_HeightMap := g.m_HeightGen.GenHeightMap x z }

/-- Pipeline step 3: the composition stage runs ComposeTerrain; it updates
exactly the mutable-reference parameters (block types, block meta, entity
lists) and leaves the height map untouched (const reference in the header). -/
def cChunkGenerator.composeStage (g : cChunkGenerator) (x z : Int) (s : ChunkData) : ChunkData :=
  let r := g.m_CompositionGen.ComposeTerrain x z s.m_BlockTypes s.m_BlockMeta
    s.m_HeightMap s.m_Entities s.m_BlockEntities
  { s with m_BlockTypes := r.1, m_BlockMeta := r.2.1,
           m_Entities := r.2.2.1, m_BlockEntities := r.2.2.2 }

/-- Pipeline step 4: each structure generator in configured order; each may
read and write block grids, height map and entity lists in place. -/
def applyStructureGens (gens : List cStructureGen) (x z : Int) (s : ChunkData) : ChunkData :=
  gens.foldl (fun t sg =>
    let r := sg.GenStructures x z t.m_BlockTypes t.m_BlockMeta t.m_HeightMap
      t.m_Entities t.m_BlockEntities
    { t with m_BlockTypes := r.1, m_BlockMeta := r.2.1, m_HeightMap := r.2.2.1,
             m_Entities := r.2.2.2.1, m_BlockEntities := r.2.2.2.2 }) s

/-- Pipeline step 5: each finisher in configured order; the biome map is a
read-only input at this stage. -/
def applyFinishGens (gens : List cFinishGen) (x z : Int) (s : ChunkData) : ChunkData :=
  gens.foldl (fun t fg =>
    let r := fg.GenFinish x z t.m_BlockTypes t.m_BlockMeta t.m_HeightMap
      t.m_BiomeMap t.m_Entities t.m_BlockEntities
    { t with m_BlockTypes := r.1, m_BlockMeta := r.2.1, m_HeightMap := r.2.2.1,
             m_Entities := r.2.2.2.1, m_BlockEntities := r.2.2.2.2 }) s

/-- The generation state after pipeline steps 1-3 (biome, height,
composition) for a chunk. -/
def cChunkGenerator.afterComposition (g : cChunkGenerator) (x z : Int) : ChunkData :=
  g.composeStage x z (g.heightStage x z (g.biomeStage x z initChunkData))

/-- Modelled from the spec: the body of cChunkGenerator::DoGenerate is not
in the sources.  Per the spec's pipeline execution contract it runs the five
stages in fixed order - biome, height, composition, the ordered structure
generators, the ordered finishers - and assembles the completed chunk.  The
vertical request coordinate is not part of chunk identity and does not
enter generation. -/
def cChunkGenerator.DoGenerate (g : cChunkGenerator)
    (a_ChunkX _a_ChunkY a_ChunkZ : Int) : ChunkData :=
  applyFinishGens g.m_FinishGens a_ChunkX a_ChunkZ
    (applyStructureGens g.m_StructureGens a_ChunkX a_ChunkZ
      (g.afterComposition a_ChunkX a_ChunkZ))

/-- Modelled from the spec: the body of cChunkGenerator::GenerateBiomes is
not in the sources.  It generates the biomes for the specified chunk
directly (synchronously, bypassing the queue) by invoking the configured
biome generator. -/
def cChunkGenerator.GenerateBiomes (g : cChunkGenerator) (a_ChunkX a_ChunkZ : Int) :
    cChunkDef.BiomeMap :=
  g.m_BiomeGen.GenBiomes a_ChunkX a_ChunkZ

/-- Modelled from the spec: ChunkDef.h is not in the sources; the relative
(in-chunk) coordinate of a world block coordinate, i.e. the remainder of
floor division by the chunk width. -/
def relCoord (a : Int) : Fin cChunkDef.Width :=
  ⟨(a % 16).toNat, by show (a % 16).toNat < 16; omega⟩

/-- Modelled from the spec: ChunkDef.h is not in the sources; reads one
biome value out of a BiomeMap at the given in-chunk column position. -/
def cChunkDef.GetBiome (a_BiomeMap : cChunkDef.BiomeMap)
    (a_X a_Z : Fin cChunkDef.Width) : EMCSBiome :=
  a_BiomeMap ⟨a_X.val + cChunkDef.Width * a_Z.val, by
    have hx : a_X.val < 16 := a_X.isLt
    have hz : a_Z.val < 16 := a_Z.isLt
    show a_X.val + 16 * a_Z.val < 256
    omega⟩

/-- Modelled from the spec: the body of cChunkGenerator::GetBiomeAt is not
in the sources.  It maps the world block coordinate to the containing chunk
(floor division by the chunk width), generates that chunk's biome map with
the configured biome generator, and reads the entry of the block's column. -/
def cChunkGenerator.GetBiomeAt (g : cChunkGenerator) (a_BlockX a_BlockZ : Int) : EMCSBiome :=
  cChunkDef.GetBiome
    (g.m_BiomeGen.GenBiomes (a_BlockX / 16) (a_BlockZ / 16))
    (relCoord a_BlockX) (relCoord a_BlockZ)

/-- Modelled from the spec: no concrete cTerrainCompositionGen is in the
sources, only the interface whose contract says the whole block type and
meta arrays get initialized, even air.  This composition fits the height
map: every voxel at or below its column's height becomes stone, every voxel
above it becomes air; all metadata becomes zero.  The incoming (possibly
uninitialized) buffers are ignored, the entity lists pass through. -/
def specComposeTerrain (_a_ChunkX _a_ChunkZ : Int)
    (_a_BlockTypes : cChunkDef.BlockTypes) (_a_BlockMeta : cChunkDef.BlockNibbles)
    (a_HeightMap : cChunkDef.HeightMap)
    (a_Entities : cEntityList) (a_BlockEntities : cBlockEntityList) :
    cChunkDef.BlockTypes × cChunkDef.BlockNibbles × cEntityList × cBlockEntityList :=
  (fun i => some (if yOfIndex i ≤ a_HeightMap (columnOfIndex i) then E_BLOCK_STONE else E_BLOCK_AIR),
   fun _ => some 0,
   a_Entities, a_BlockEntities)

/-- The composition generator built from the spec-modelled ComposeTerrain. -/
def specCompositionGen : cTerrainCompositionGen := ⟨specComposeTerrain⟩

/-- Does a queued request carry the given chunk x and z coordinates?  Per
the spec, identity for deduplication is the (x,z) pair alone. -/
def matchesXZ (x z : Int) (c : cChunkCoords) : Bool :=
  c.m_ChunkX == x && c.m_ChunkZ == z

/-- Modelled from the spec: the body of cChunkGenerator::QueueGenerateChunk
is not in the sources.  Per the header comment, requests are not added to
the queue if there is already a request with the same coords; per the spec,
the identity used for this deduplication is the (x,z) pair alone, and new
requests join the back of the FIFO queue. -/
def QueueGenerateChunk (a_Queue : List cChunkCoords)
    (a_ChunkX a_ChunkY a_ChunkZ : Int) : List cChunkCoords :=
  if a_Queue.any (matchesXZ a_ChunkX a_ChunkZ) then a_Queue
  else a_Queue ++ [⟨a_ChunkX, a_ChunkY, a_ChunkZ⟩]

/-- N successive calls of QueueGenerateChunk with the same coordinates. -/
def enqueueNTimes (a_Queue : List cChunkCoords) (x y z : Int) : Nat → List cChunkCoords
  | 0 => a_Queue
  | n + 1 => QueueGenerateChunk (enqueueNTimes a_Queue x y z n) x y z

/-- Modelled from the spec: the World collaborator interface, with the
capability queries the orchestrator consumes: whether a chunk is already
materialized, and whether anything currently needs a chunk (drives the
overload skipping). -/
structure cWorld where
  IsChunkAlreadyGenerated : Int → Int → Bool
  HasInterestedObserver : Int → Int → Bool

/-- Modelled from the spec: storing a completed chunk makes the World
report it as already generated; the observer state is unaffected. -/
def cWorld.StoreGeneratedChunk (w : cWorld) (x z : Int) : cWorld :=
  { w with IsChunkAlreadyGenerated :=
      fun a b => (a == x && b == z) || w.IsChunkAlreadyGenerated a b }

/-- One observable event of the worker loop: a pipeline run whose completed
chunk was stored, a request skipped because the chunk already exists, a
request dropped by the overload policy, or a pipeline run that faulted. -/
inductive GenEvent where
  | generated (x z : Int) (d : ChunkData)
  | skippedAlreadyGenerated (x z : Int)
  | skippedOverload (x z : Int)
  | faulted (x z : Int) (msg : String)

/-- Is this event a store of a completed chunk for the given coordinate? -/
def GenEvent.isStoreFor (x z : Int) : GenEvent → Bool
  | .generated a b _ => a == x && b == z
  | _ => false

/-- Modelled from the spec: the worker loop of cChunkGenerator::Execute is
not in the sources.  Each iteration: if the stop flag is set when the worker
would next dequeue, it exits even with requests remaining; else it dequeues
the oldest request, re-checks with the World whether the chunk is already
generated (skip if so), applies the overload policy (drop if the remaining
queue length exceeds the threshold and no observer needs the chunk), and
otherwise runs the pipeline: a fault abandons the request and the loop
continues, a success stores the completed chunk with the World.  The
iteration counter indexes the stop flag's value at each dequeue point; the
result is the trace of events of the whole run. -/
def ExecuteLoop (pipe : Int → Int → Except String ChunkData) (threshold : Nat)
    (stop : Nat → Bool) : Nat → cWorld → List cChunkCoords → List GenEvent
  | _, _, [] => []
  | i, w, c :: rest =>
    if stop i then []
    else if w.IsChunkAlreadyGenerated c.m_ChunkX c.m_ChunkZ then
      GenEvent.skippedAlreadyGenerated c.m_ChunkX c.m_ChunkZ ::
        ExecuteLoop pipe threshold stop (i + 1) w rest
    else if decide (rest.length > threshold) && !w.HasInterestedObserver c.m_ChunkX c.m_ChunkZ then
      GenEvent.skippedOverload c.m_ChunkX c.m_ChunkZ ::
        ExecuteLoop pipe threshold stop (i + 1) w rest
    else
      match pipe c.m_ChunkX c.m_ChunkZ with
      | Except.error msg =>
          GenEvent.faulted c.m_ChunkX c.m_ChunkZ msg ::
            ExecuteLoop pipe threshold stop (i + 1) w rest
      | Except.ok d =>
          GenEvent.generated c.m_ChunkX c.m_ChunkZ d ::
            ExecuteLoop pipe threshold stop (i + 1)
              (w.StoreGeneratedChunk c.m_ChunkX c.m_ChunkZ) rest

/-- The never-faulting pipeline of a generator: every request runs
DoGenerate to completion. -/
def okPipe (g : cChunkGenerator) : Int → Int → Except String ChunkData :=
  fun a b => Except.ok (g.DoGenerate a 0 b)

/-- A concrete biome generator: a fixed biome everywhere. -/
def constBiomeGen : cBiomeGen := ⟨fun _ _ => fun _ => 1⟩

/-- A concrete height generator: flat terrain at height 64. -/
def flatHeightGen : cTerrainHeightGen := ⟨fun _ _ => fun _ => 64⟩

/-- A concrete, fully configured generator used to instantiate the general
theorems at concrete inputs. -/
def sampleGen : cChunkGenerator :=
  ⟨constBiomeGen, flatHeightGen, specCompositionGen, [], [], 0⟩

/-- A concrete World with nothing generated and every chunk observed. -/
def freshWorld : cWorld := ⟨fun _ _ => false, fun _ _ => true⟩

/-- A concrete World with nothing generated and no observers anywhere. -/
def noObserverWorld : cWorld := ⟨fun _ _ => false, fun _ _ => false⟩

/-- A concrete World that reports every chunk as already generated. -/
def allGeneratedWorld : cWorld := ⟨fun _ _ => true, fun _ _ => true⟩

/-- A pipeline that faults on every request. -/
def faultyPipe : Int → Int → Except String ChunkData :=
  fun _ _ => Except.error "strategy fault"

/-- Storing a chunk preserves the already-generated flag of every chunk that
had it. -/
theorem StoreGeneratedChunk_mono (w : cWorld) (a b x z : Int)
    (h : w.IsChunkAlreadyGenerated x z = true) :
    (w.StoreGeneratedChunk a b).IsChunkAlreadyGenerated x z = true := by
  simp [cWorld.StoreGeneratedChunk, h]

/-- Storing a chunk does not change the observer query. -/
theorem StoreGeneratedChunk_obs (w : cWorld) (a b : Int) :
    (w.StoreGeneratedChunk a b).HasInterestedObserver = w.HasInterestedObserver := rfl

/-- The structure stage never touches the biome map (GenStructures does not
even receive it). -/
theorem applyStructureGens_biomeMap (gens : List cStructureGen) (x z : Int) (s : ChunkData) :
    (applyStructureGens gens x z s).m_BiomeMap = s.m_BiomeMap := by
  induction gens generalizing s with
  | nil => rfl
  | cons sg rest ih => simpa [applyStructureGens] using ih _

/-- The finisher stage receives the biome map read-only and never changes it. -/
theorem applyFinishGens_biomeMap (gens : List cFinishGen) (x z : Int) (s : ChunkData) :
    (applyFinishGens gens x z s).m_BiomeMap = s.m_BiomeMap := by
  induction gens generalizing s with
  | nil => rfl
  | cons fg rest ih => simpa [applyFinishGens] using ih _

/-- The biome map of a completed pipeline run is exactly the biome
strategy's output of step 1. -/
theorem DoGenerate_biomeMap (g : cChunkGenerator) (x y z : Int) :
    (g.DoGenerate x y z).m_BiomeMap = g.m_BiomeGen.GenBiomes x z := by
  unfold cChunkGenerator.DoGenerate
  rw [applyFinishGens_biomeMap, applyStructureGens_biomeMap]
  rfl

/-- A structure generator that overwrites the height map with the constant
height 7, witnessing that the structure stage may mutate the height map. -/
def setHeightSevenGen : cStructureGen :=
  ⟨fun _ _ bt bm _ e be => (bt, bm, fun _ => 7, e, be)⟩

/-- Claim C7: GenerateBiomes, the direct synchronous call that bypasses the
queue, produces a BiomeMap identical to the one step 1 of the full pipeline
(the biome strategy's GenBiomes) produces for the same coordinate and
configuration: the two code paths for biome generation are equal. -/
theorem generateBiomes_matches_pipeline_step1 :
    ∀ (g : cChunkGenerator) (x y z : Int),
      g.GenerateBiomes x z = g.m_BiomeGen.GenBiomes x z
      ∧ (g.DoGenerate x y z).m_BiomeMap = g.GenerateBiomes x z := by
  intro g x y z
  exact ⟨rfl, DoGenerate_biomeMap g x y z⟩

/-- Claim C8: for every world-block position, GetBiomeAt returns the entry
of that column's position in the BiomeMap produced by GenerateBiomes for
the chunk containing the position; the containing chunk and the in-chunk
column are given by floor division and remainder by the chunk width. -/
theorem getBiomeAt_matches_biomeMap :
    ∀ (g : cChunkGenerator) (wx wz : Int),
      g.GetBiomeAt wx wz =
        cChunkDef.GetBiome (g.GenerateBiomes (wx / 16) (wz / 16))
          (relCoord wx) (relCoord wz)
      ∧ wx = 16 * (wx / 16) + ((relCoord wx).val : Int)
      ∧ wz = 16 * (wz / 16) + ((relCoord wz).val : Int) := by
  intro g wx wz
  refine ⟨rfl, ?_, ?_⟩ <;> · simp only [relCoord]; omega

/-- Claim C10: the composition stage cannot alter the height map -
ComposeTerrain receives it by const reference, so the height map after
pipeline step 3 equals the one produced by step 2 (the height stage) -
while the structure stage, which receives it mutably, may change it. -/
theorem composeTerrain_heightmap_frame :
    (∀ (g : cChunkGenerator) (x z : Int) (s : ChunkData),
      (g.composeStage x z s).m_HeightMap = s.m_HeightMap)
    ∧ (∀ (g : cChunkGenerator) (x z : Int),
      (g.afterComposition x z).m_HeightMap = g.m_HeightGen.GenHeightMap x z)
    ∧ (∃ (sg : cStructureGen) (x z : Int) (s : ChunkData),
      (applyStructureGens [sg] x z s).m_HeightMap ≠ s.m_HeightMap) := by
  refine ⟨fun g x z s => rfl, fun g x z => rfl,
    ⟨setHeightSevenGen, 0, 0, initChunkData, ?_⟩⟩
  intro h
  have h0 := congrFun h ⟨0, by decide⟩
  simp [applyStructureGens, setHeightSevenGen, initChunkData] at h0

/-- Claim C6: after the composition stage, every voxel index of the block
type grid and the block meta grid holds a defined, non-sentinel value, for
every coordinate and every input state - including the all-air case for
voxels above the generated terrain height - both for the spec-modelled
ComposeTerrain itself and for pipeline step 3 of any generator configured
with it. -/
theorem composeTerrain_initializes_every_voxel :
    ∀ (x z : Int) (bt : cChunkDef.BlockTypes) (bm : cChunkDef.BlockNibbles)
      (hm : cChunkDef.HeightMap) (e : cEntityList) (be : cBlockEntityList),
      (∀ i, ((specComposeTerrain x z bt bm hm e be).1 i).isSome = true)
      ∧ (∀ i, ((specComposeTerrain x z bt bm hm e be).2.1 i).isSome = true)
      ∧ (∀ i, hm (columnOfIndex i) < yOfIndex i →
          (specComposeTerrain x z bt bm hm e be).1 i = some E_BLOCK_AIR)
      ∧ (∀ (bg : cBiomeGen) (hg : cTerrainHeightGen) (sgs : List cStructureGen)
          (fgs : List cFinishGen) (seed : Int) (i : Fin cChunkDef.NumBlocks),
          (((cChunkGenerator.mk bg hg specCompositionGen sgs fgs seed).afterComposition
            x z).m_BlockTypes i).isSome = true
          ∧ (((cChunkGenerator.mk bg hg specCompositionGen sgs fgs seed).afterComposition
            x z).m_BlockMeta i).isSome = true) := by
  intro x z bt bm hm e be
  refine ⟨fun i => rfl, fun i => rfl, fun i hi => ?_, fun bg hg sgs fgs seed i => ⟨rfl, rfl⟩⟩
  simp only [specComposeTerrain]
  rw [if_neg (by omega)]

/-- Concrete instantiation of composeTerrain_initializes_every_voxel: on
flat terrain of height 64, the topmost voxel (y = 127) is above the terrain
and composes to air, a defined value. -/
theorem composeTerrain_initializes_every_voxel_witness :
    ((64 : Nat) < yOfIndex ⟨32767, by decide⟩)
    ∧ (specComposeTerrain 0 0 initChunkData.m_BlockTypes initChunkData.m_BlockMeta
        (fun _ => 64) [] []).1 ⟨32767, by decide⟩ = some E_BLOCK_AIR :=
  ⟨by decide,
   (composeTerrain_initializes_every_voxel 0 0 initChunkData.m_BlockTypes
      initChunkData.m_BlockMeta (fun _ => 64) [] []).2.2.1 ⟨32767, by decide⟩ (by decide)⟩

/-- If the world already reports a chunk as generated, no iteration of the
worker loop ever emits a store (generated) event for it: the re-check at
the dequeue point discards every such request. -/
theorem mem_generated_not_alreadyGenerated
    (pipe : Int → Int → Except String ChunkData) (thr : Nat) (stop : Nat → Bool)
    (x z : Int) (d : ChunkData) :
    ∀ (q : List cChunkCoords) (i : Nat) (w : cWorld),
      w.IsChunkAlreadyGenerated x z = true →
      GenEvent.generated x z d ∉ ExecuteLoop pipe thr stop i w q := by
  intro q
  induction q with
  | nil => intro i w _ hmem; simp [ExecuteLoop] at hmem
  | cons c rest ih =>
    intro i w hw hmem
    simp only [ExecuteLoop] at hmem
    split at hmem
    · simp at hmem
    · split at hmem
      · rcases List.mem_cons.mp hmem with h | h
        · cases h
        · exact ih (i + 1) w hw h
      · split at hmem
        · rcases List.mem_cons.mp hmem with h | h
          · cases h
          · exact ih (i + 1) w hw h
        · rename_i hnotgen _
          split at hmem
          · rcases List.mem_cons.mp hmem with h | h
            · cases h
            · exact ih (i + 1) w hw h
          · rcases List.mem_cons.mp hmem with h | h
            · cases h
              exact hnotgen hw
            · exact ih (i + 1) (w.StoreGeneratedChunk c.m_ChunkX c.m_ChunkZ)
                (StoreGeneratedChunk_mono w _ _ x z hw) h

/-- With the never-faulting pipeline of a generator, every stored chunk in
the worker trace is exactly the DoGenerate output for its coordinate. -/
theorem mem_generated_eq_DoGenerate (g : cChunkGenerator) (thr : Nat)
    (stop : Nat → Bool) (x z : Int) (d : ChunkData) :
    ∀ (q : List cChunkCoords) (i : Nat) (w : cWorld),
      GenEvent.generated x z d ∈ ExecuteLoop (okPipe g) thr stop i w q →
      d = g.DoGenerate x 0 z := by
  intro q
  induction q with
  | nil => intro i w hmem; simp [ExecuteLoop] at hmem
  | cons c rest ih =>
    intro i w hmem
    simp only [ExecuteLoop, okPipe] at hmem
    split at hmem
    · simp at hmem
    · split at hmem
      · rcases List.mem_cons.mp hmem with h | h
        · cases h
        · exact ih (i + 1) w h
      · split at hmem
        · rcases List.mem_cons.mp hmem with h | h
          · cases h
          · exact ih (i + 1) w h
        · rcases List.mem_cons.mp hmem with h | h
          · cases h; rfl
          · exact ih (i + 1) _ h

/-- Claim C1: two-run determinism of DoGenerate - for one fixed generator
(seed and pipeline configuration), whenever a chunk at (x, z) is generated
and stored in two separate worker runs, over any queues, any world states,
any thresholds and any stop schedules, the two stored chunks carry
identical block type grid, block meta grid, biome map and height map. -/
theorem doGenerate_two_run_deterministic :
    ∀ (g : cChunkGenerator) (thr1 thr2 : Nat) (stop1 stop2 : Nat → Bool)
      (w1 w2 : cWorld) (q1 q2 : List cChunkCoords) (x z : Int) (d1 d2 : ChunkData),
      GenEvent.generated x z d1 ∈ ExecuteLoop (okPipe g) thr1 stop1 0 w1 q1 →
      GenEvent.generated x z d2 ∈ ExecuteLoop (okPipe g) thr2 stop2 0 w2 q2 →
      d1.m_BlockTypes = d2.m_BlockTypes ∧ d1.m_BlockMeta = d2.m_BlockMeta
      ∧ d1.m_BiomeMap = d2.m_BiomeMap ∧ d1.m_HeightMap = d2.m_HeightMap := by
  intro g thr1 thr2 stop1 stop2 w1 w2 q1 q2 x z d1 d2 h1 h2
  have e1 := mem_generated_eq_DoGenerate g thr1 stop1 x z d1 q1 0 w1 h1
  have e2 := mem_generated_eq_DoGenerate g thr2 stop2 x z d2 q2 0 w2 h2
  subst e1; subst e2
  exact ⟨rfl, rfl, rfl, rfl⟩

/-- Concrete instantiation of doGenerate_two_run_deterministic: chunk (3,4)
generated in a run where it is the only request and in a second run where
another chunk precedes it yields the same stored data. -/
theorem doGenerate_two_run_deterministic_witness :
    (GenEvent.generated 3 4 (sampleGen.DoGenerate 3 0 4) ∈
      ExecuteLoop (okPipe sampleGen) 1000 (fun _ => false) 0 freshWorld
        [⟨3, 0, 4⟩])
    ∧ (GenEvent.generated 3 4 (sampleGen.DoGenerate 3 0 4) ∈
      ExecuteLoop (okPipe sampleGen) 1000 (fun _ => false) 0 freshWorld
        [⟨5, 0, 6⟩, ⟨3, 0, 4⟩])
    ∧ (sampleGen.DoGenerate 3 0 4).m_BiomeMap = (sampleGen.DoGenerate 3 0 4).m_BiomeMap := by
  have h1 : GenEvent.generated 3 4 (sampleGen.DoGenerate 3 0 4) ∈
      ExecuteLoop (okPipe sampleGen) 1000 (fun _ => false) 0 freshWorld
        [⟨3, 0, 4⟩] := by
    simp [ExecuteLoop, okPipe, freshWorld]
  have h2 : GenEvent.generated 3 4 (sampleGen.DoGenerate 3 0 4) ∈
      ExecuteLoop (okPipe sampleGen) 1000 (fun _ => false) 0 freshWorld
        [⟨5, 0, 6⟩, ⟨3, 0, 4⟩] := by
    simp [ExecuteLoop, okPipe, freshWorld, cWorld.StoreGeneratedChunk]
  exact ⟨h1, h2,
    (doGenerate_two_run_deterministic sampleGen 1000 1000 (fun _ => false)
      (fun _ => false) freshWorld freshWorld [⟨3, 0, 4⟩] [⟨5, 0, 6⟩, ⟨3, 0, 4⟩]
      3 4 _ _ h1 h2).2.2.1⟩

/-- Claim C4: after a stop is requested, the worker starts no new pipeline
run - if the stop flag is set when the worker would next dequeue, the loop
exits even with requests remaining - while an iteration whose dequeue
happened before the stop runs its pipeline to completion and stores its
result regardless of the stop flag's later values. -/
theorem stop_prevents_new_runs :
    (∀ (pipe : Int → Int → Except String ChunkData) (thr : Nat) (stop : Nat → Bool)
      (i : Nat) (w : cWorld) (q : List cChunkCoords),
      stop i = true → ExecuteLoop pipe thr stop i w q = [])
    ∧ (∀ (pipe : Int → Int → Except String ChunkData) (thr : Nat) (stop : Nat → Bool)
      (i : Nat) (w : cWorld) (c : cChunkCoords) (rest : List cChunkCoords) (d : ChunkData),
      stop i = false →
      w.IsChunkAlreadyGenerated c.m_ChunkX c.m_ChunkZ = false →
      (decide (rest.length > thr) && !w.HasInterestedObserver c.m_ChunkX c.m_ChunkZ) = false →
      pipe c.m_ChunkX c.m_ChunkZ = Except.ok d →
      ExecuteLoop pipe thr stop i w (c :: rest) =
        GenEvent.generated c.m_ChunkX c.m_ChunkZ d ::
          ExecuteLoop pipe thr stop (i + 1)
            (w.StoreGeneratedChunk c.m_ChunkX c.m_ChunkZ) rest) := by
  constructor
  · intro pipe thr stop i w q hstop
    cases q with
    | nil => rfl
    | cons c rest => simp [ExecuteLoop, hstop]
  · intro pipe thr stop i w c rest d hstop hgen hover hpipe
    simp [ExecuteLoop, hstop, hgen, hover, hpipe]

/-- Concrete instantiation of stop_prevents_new_runs: with a stop flag
raised from iteration 1 on, the first request is generated and stored and
the loop then exits, leaving the second request unprocessed. -/
theorem stop_prevents_new_runs_witness :
    ((fun j => decide (1 ≤ j)) 1 = true
      ∧ ExecuteLoop (okPipe sampleGen) 1000 (fun j => decide (1 ≤ j)) 1
          (freshWorld.StoreGeneratedChunk 3 4) [⟨5, 0, 6⟩] = [])
    ∧ ((fun j => decide (1 ≤ j)) 0 = false
      ∧ ExecuteLoop (okPipe sampleGen) 1000 (fun j => decide (1 ≤ j)) 0 freshWorld
          [⟨3, 0, 4⟩, ⟨5, 0, 6⟩] =
        GenEvent.generated 3 4 (sampleGen.DoGenerate 3 0 4) ::
          ExecuteLoop (okPipe sampleGen) 1000 (fun j => decide (1 ≤ j)) 1
            (freshWorld.StoreGeneratedChunk 3 4) [⟨5, 0, 6⟩]) :=
  ⟨⟨by decide,
    stop_prevents_new_runs.1 (okPipe sampleGen) 1000 (fun j => decide (1 ≤ j)) 1
      (freshWorld.StoreGeneratedChunk 3 4) [⟨5, 0, 6⟩] (by decide)⟩,
   ⟨by decide,
    stop_prevents_new_runs.2 (okPipe sampleGen) 1000 (fun j => decide (1 ≤ j)) 0
      freshWorld ⟨3, 0, 4⟩ [⟨5, 0, 6⟩] (sampleGen.DoGenerate 3 0 4)
      (by decide) (by decide) (by decide) rfl⟩⟩

/-- Claim C5: strategy faults are isolated per request - when the pipeline
faults on a dequeued request, the worker emits the fault report, stores no
chunk for that request (the world state passed on is unchanged, so
StoreGeneratedChunk is not called), drops the request without retrying it,
and continues the loop with the remaining requests. -/
theorem strategy_fault_isolated :
    ∀ (pipe : Int → Int → Except String ChunkData) (thr : Nat) (stop : Nat → Bool)
      (i : Nat) (w : cWorld) (c : cChunkCoords) (rest : List cChunkCoords) (msg : String),
      stop i = false →
      w.IsChunkAlreadyGenerated c.m_ChunkX c.m_ChunkZ = false →
      (decide (rest.length > thr) && !w.HasInterestedObserver c.m_ChunkX c.m_ChunkZ) = false →
      pipe c.m_ChunkX c.m_ChunkZ = Except.error msg →
      ExecuteLoop pipe thr stop i w (c :: rest) =
        GenEvent.faulted c.m_ChunkX c.m_ChunkZ msg ::
          ExecuteLoop pipe thr stop (i + 1) w rest := by
  intro pipe thr stop i w c rest msg hstop hgen hover hpipe
  simp [ExecuteLoop, hstop, hgen, hover, hpipe]

/-- Concrete instantiation of strategy_fault_isolated: a faulting pipeline
on request (1,2) reports the fault and the worker continues with the next
request, storing nothing. -/
theorem strategy_fault_isolated_witness :
    faultyPipe 1 2 = Except.error "strategy fault"
    ∧ ExecuteLoop faultyPipe 1000 (fun _ => false) 0 freshWorld
        [⟨1, 0, 2⟩, ⟨3, 0, 4⟩] =
      GenEvent.faulted 1 2 "strategy fault" ::
        ExecuteLoop faultyPipe 1000 (fun _ => false) 1 freshWorld [⟨3, 0, 4⟩] :=
  ⟨rfl,
   strategy_fault_isolated faultyPipe 1000 (fun _ => false) 0 freshWorld
     ⟨1, 0, 2⟩ [⟨3, 0, 4⟩] "strategy fault" (by decide) (by decide) (by decide) rfl⟩

/-- Claim C3: the worker never regenerates an already-materialized chunk -
the storage state is re-checked at the dequeue point, a request whose chunk
the world already reports as generated is discarded with no pipeline run
and no store, and more generally no store event for such a chunk ever
appears in the worker trace. -/
theorem no_regeneration_of_generated_chunk :
    (∀ (pipe : Int → Int → Except String ChunkData) (thr : Nat) (stop : Nat → Bool)
      (i : Nat) (w : cWorld) (c : cChunkCoords) (rest : List cChunkCoords),
      stop i = false →
      w.IsChunkAlreadyGenerated c.m_ChunkX c.m_ChunkZ = true →
      ExecuteLoop pipe thr stop i w (c :: rest) =
        GenEvent.skippedAlreadyGenerated c.m_ChunkX c.m_ChunkZ ::
          ExecuteLoop pipe thr stop (i + 1) w rest)
    ∧ (∀ (pipe : Int → Int → Except String ChunkData) (thr : Nat) (stop : Nat → Bool)
      (i : Nat) (w : cWorld) (q : List cChunkCoords) (x z : Int) (d : ChunkData),
      w.IsChunkAlreadyGenerated x z = true →
      GenEvent.generated x z d ∉ ExecuteLoop pipe thr stop i w q) := by
  constructor
  · intro pipe thr stop i w c rest hstop hgen
    simp [ExecuteLoop, hstop, hgen]
  · intro pipe thr stop i w q x z d hw
    exact mem_generated_not_alreadyGenerated pipe thr stop x z d q i w hw

/-- Concrete instantiation of no_regeneration_of_generated_chunk: in a
world where everything is generated, request (1,2) is discarded and no
store for it appears anywhere in the trace. -/
theorem no_regeneration_of_generated_chunk_witness :
    (ExecuteLoop (okPipe sampleGen) 1000 (fun _ => false) 0 allGeneratedWorld
        [⟨1, 0, 2⟩] =
      GenEvent.skippedAlreadyGenerated 1 2 ::
        ExecuteLoop (okPipe sampleGen) 1000 (fun _ => false) 1 allGeneratedWorld [])
    ∧ GenEvent.generated 1 2 (sampleGen.DoGenerate 1 0 2) ∉
        ExecuteLoop (okPipe sampleGen) 1000 (fun _ => false) 0 allGeneratedWorld
          [⟨1, 0, 2⟩] :=
  ⟨no_regeneration_of_generated_chunk.1 (okPipe sampleGen) 1000 (fun _ => false) 0
     allGeneratedWorld ⟨1, 0, 2⟩ [] (by decide) (by decide),
   no_regeneration_of_generated_chunk.2 (okPipe sampleGen) 1000 (fun _ => false) 0
     allGeneratedWorld [⟨1, 0, 2⟩] 1 2 (sampleGen.DoGenerate 1 0 2) (by decide)⟩

/-- Every overload-drop event in a worker trace concerns a chunk the world
reports as having no interested observer. -/
theorem mem_skippedOverload_no_observer
    (pipe : Int → Int → Except String ChunkData) (thr : Nat) (stop : Nat → Bool)
    (x z : Int) :
    ∀ (q : List cChunkCoords) (i : Nat) (w : cWorld),
      GenEvent.skippedOverload x z ∈ ExecuteLoop pipe thr stop i w q →
      w.HasInterestedObserver x z = false := by
  intro q
  induction q with
  | nil => intro i w hmem; simp [ExecuteLoop] at hmem
  | cons c rest ih =>
    intro i w hmem
    simp only [ExecuteLoop] at hmem
    split at hmem
    · simp at hmem
    · split at hmem
      · rcases List.mem_cons.mp hmem with h | h
        · cases h
        · exact ih (i + 1) w h
      · split at hmem
        · rename_i hcond
          rcases List.mem_cons.mp hmem with h | h
          · cases h
            have hobs := (Bool.and_eq_true _ _).mp hcond |>.2
            simpa using hobs
          · exact ih (i + 1) w h
        · split at hmem
          · rcases List.mem_cons.mp hmem with h | h
            · cases h
            · exact ih (i + 1) w h
          · rcases List.mem_cons.mp hmem with h | h
            · cases h
            · exact ih (i + 1) (w.StoreGeneratedChunk c.m_ChunkX c.m_ChunkZ) h

/-- A worker trace over a queue no longer than the threshold plus one never
contains an overload-drop event: after dequeuing, the remaining queue never
exceeds the threshold. -/
theorem short_queue_no_overload_drop
    (pipe : Int → Int → Except String ChunkData) (thr : Nat) (stop : Nat → Bool)
    (x z : Int) :
    ∀ (q : List cChunkCoords) (i : Nat) (w : cWorld),
      q.length ≤ thr + 1 →
      GenEvent.skippedOverload x z ∉ ExecuteLoop pipe thr stop i w q := by
  intro q
  induction q with
  | nil => intro i w _ hmem; simp [ExecuteLoop] at hmem
  | cons c rest ih =>
    intro i w hlen hmem
    have hrest : rest.length ≤ thr := by
      simpa [List.length_cons] using hlen
    simp only [ExecuteLoop] at hmem
    split at hmem
    · simp at hmem
    · split at hmem
      · rcases List.mem_cons.mp hmem with h | h
        · cases h
        · exact ih (i + 1) w (by omega) h
      · split at hmem
        · rename_i hcond
          have : ¬(rest.length > thr) := by omega
          simp [this] at hcond
        · split at hmem
          · rcases List.mem_cons.mp hmem with h | h
            · cases h
            · exact ih (i + 1) w (by omega) h
          · rcases List.mem_cons.mp hmem with h | h
            · cases h
            · exact ih (i + 1) (w.StoreGeneratedChunk c.m_ChunkX c.m_ChunkZ) (by omega) h

/-- Claim C9: overload skipping drops only unobserved requests and only
over the threshold - any request dropped by the overload policy has no
interested observer (an observed request is never silently dropped), and
when the queue never exceeds the configured threshold after a dequeue no
request is dropped at all. -/
theorem overload_drop_policy :
    (∀ (pipe : Int → Int → Except String ChunkData) (thr : Nat) (stop : Nat → Bool)
      (i : Nat) (w : cWorld) (q : List cChunkCoords) (x z : Int),
      GenEvent.skippedOverload x z ∈ ExecuteLoop pipe thr stop i w q →
      w.HasInterestedObserver x z = false)
    ∧ (∀ (pipe : Int → Int → Except String ChunkData) (thr : Nat) (stop : Nat → Bool)
      (i : Nat) (w : cWorld) (q : List cChunkCoords) (x z : Int),
      q.length ≤ thr + 1 →
      GenEvent.skippedOverload x z ∉ ExecuteLoop pipe thr stop i w q) := by
  exact ⟨fun pipe thr stop i w q x z h =>
      mem_skippedOverload_no_observer pipe thr stop x z q i w h,
    fun pipe thr stop i w q x z hlen h =>
      short_queue_no_overload_drop pipe thr stop x z q i w hlen h⟩

/-- Concrete instantiation of overload_drop_policy: with threshold 0 and no
observers, the first of two queued requests is dropped, and it indeed has
no observer; with a large threshold a singleton queue is never dropped. -/
theorem overload_drop_policy_witness :
    (GenEvent.skippedOverload 1 2 ∈
      ExecuteLoop (okPipe sampleGen) 0 (fun _ => false) 0 noObserverWorld
        [⟨1, 0, 2⟩, ⟨3, 0, 4⟩]
      ∧ noObserverWorld.HasInterestedObserver 1 2 = false)
    ∧ GenEvent.skippedOverload 1 2 ∉
        ExecuteLoop (okPipe sampleGen) 1000 (fun _ => false) 0 noObserverWorld
          [⟨1, 0, 2⟩] := by
  have hmem : GenEvent.skippedOverload 1 2 ∈
      ExecuteLoop (okPipe sampleGen) 0 (fun _ => false) 0 noObserverWorld
        [⟨1, 0, 2⟩, ⟨3, 0, 4⟩] := by
    simp [ExecuteLoop, okPipe, noObserverWorld]
  exact ⟨⟨hmem,
    overload_drop_policy.1 (okPipe sampleGen) 0 (fun _ => false) 0 noObserverWorld
      [⟨1, 0, 2⟩, ⟨3, 0, 4⟩] 1 2 hmem⟩,
    overload_drop_policy.2 (okPipe sampleGen) 1000 (fun _ => false) 0 noObserverWorld
      [⟨1, 0, 2⟩] 1 2 (by decide)⟩

/-- A queue with no request for (x,z) gains exactly one on enqueue. -/
theorem QueueGenerateChunk_count_new (q : List cChunkCoords) (x y z : Int)
    (h : q.countP (matchesXZ x z) = 0) :
    (QueueGenerateChunk q x y z).countP (matchesXZ x z) = 1 := by
  have hany : q.any (matchesXZ x z) = false := by
    rw [Bool.eq_false_iff]
    intro hc
    rcases List.any_eq_true.mp hc with ⟨c, hcq, hcm⟩
    have := List.countP_eq_zero.mp h c hcq
    exact this hcm
  simp [QueueGenerateChunk, hany, List.countP_append, h, List.countP_cons, matchesXZ]

/-- Enqueuing already-queued coordinates keeps the per-coordinate request
count at one. -/
theorem QueueGenerateChunk_count_stays_one (q : List cChunkCoords) (x y z : Int)
    (h : q.countP (matchesXZ x z) = 1) :
    (QueueGenerateChunk q x y z).countP (matchesXZ x z) = 1 := by
  have hpos : 0 < q.countP (matchesXZ x z) := by rw [h]; exact Nat.one_pos
  have hany : q.any (matchesXZ x z) = true := by
    rcases List.countP_pos_iff.mp hpos with ⟨c, hcq, hcm⟩
    exact List.any_eq_true.mpr ⟨c, hcq, hcm⟩
  simpa [QueueGenerateChunk, hany]

/-- Every store event of a worker trace comes from a queued request with
the same (x,z) coordinates: stores for (x,z) never outnumber requests. -/
theorem countP_store_le_countP_queue
    (pipe : Int → Int → Except String ChunkData) (thr : Nat) (stop : Nat → Bool)
    (x z : Int) :
    ∀ (q : List cChunkCoords) (i : Nat) (w : cWorld),
      (ExecuteLoop pipe thr stop i w q).countP (GenEvent.isStoreFor x z) ≤
        q.countP (matchesXZ x z) := by
  intro q
  induction q with
  | nil => intro i w; simp [ExecuteLoop]
  | cons c rest ih =>
    intro i w
    simp only [ExecuteLoop]
    split
    · simp
    · rw [List.countP_cons]
      split
      · have := ih (i + 1) w
        simp [List.countP_cons, GenEvent.isStoreFor]
        omega
      · split
        · have := ih (i + 1) w
          simp [List.countP_cons, GenEvent.isStoreFor]
          omega
        · split
          · have := ih (i + 1) w
            simp [List.countP_cons, GenEvent.isStoreFor]
            omega
          · have := ih (i + 1) (w.StoreGeneratedChunk c.m_ChunkX c.m_ChunkZ)
            simp [List.countP_cons, GenEvent.isStoreFor, matchesXZ]
            omega

/-- Reduction of an if whose condition is the literal true Bool. -/
theorem if_bool_true {α : Sort _} (a b : α) : (if (true = true) then a else b) = a := rfl

/-- Reduction of an if whose condition is the literal false Bool. -/
theorem if_bool_false {α : Sort _} (a b : α) : (if (false = true) then a else b) = b := rfl

/-- With no stop request, a pipeline that succeeds at (x,z), an interested
observer there and a world not yet holding (x,z), a queue carrying exactly
one request for (x,z) produces exactly one store for (x,z). -/
theorem store_count_exactly_one
    (pipe : Int → Int → Except String ChunkData) (thr : Nat) (stop : Nat → Bool)
    (x z : Int) (d : ChunkData)
    (hstop : ∀ j, stop j = false) (hpipe : pipe x z = Except.ok d) :
    ∀ (q : List cChunkCoords) (i : Nat) (w : cWorld),
      w.IsChunkAlreadyGenerated x z = false →
      w.HasInterestedObserver x z = true →
      q.countP (matchesXZ x z) = 1 →
      (ExecuteLoop pipe thr stop i w q).countP (GenEvent.isStoreFor x z) = 1 := by
  intro q
  induction q with
  | nil => intro i w _ _ hcount; simp at hcount
  | cons c rest ih =>
    intro i w hw hobs hcount
    rw [List.countP_cons] at hcount
    by_cases hc : matchesXZ x z c = true
    · have hxz : c.m_ChunkX = x ∧ c.m_ChunkZ = z := by
        simpa [matchesXZ, Bool.and_eq_true, beq_iff_eq] using hc
      have hrest : rest.countP (matchesXZ x z) = 0 := by
        rw [hc, if_bool_true] at hcount; omega
      obtain ⟨hcx, hcz⟩ := hxz
      have htail := countP_store_le_countP_queue pipe thr stop x z rest (i + 1)
        (w.StoreGeneratedChunk x z)
      simp only [ExecuteLoop, hstop i, hcx, hcz, hw, hobs, hpipe, Bool.not_true,
        Bool.and_false, if_bool_false]
      rw [List.countP_cons]
      have hhead : GenEvent.isStoreFor x z (GenEvent.generated x z d) = true := by
        simp [GenEvent.isStoreFor]
      rw [hhead, if_bool_true]
      omega
    · have hcf : matchesXZ x z c = false := Bool.eq_false_iff.mpr hc
      have hne : ¬(c.m_ChunkX = x ∧ c.m_ChunkZ = z) := by
        simpa [matchesXZ, Bool.and_eq_true, beq_iff_eq] using hc
      have hbeq : (c.m_ChunkX == x && c.m_ChunkZ == z) = false := hcf
      have hrest : rest.countP (matchesXZ x z) = 1 := by
        rw [hcf, if_bool_false] at hcount; omega
      simp only [ExecuteLoop, hstop i, if_bool_false]
      split
      · have := ih (i + 1) w hw hobs hrest
        rw [List.countP_cons]
        simp only [GenEvent.isStoreFor, if_bool_false]
        omega
      · split
        · have := ih (i + 1) w hw hobs hrest
          rw [List.countP_cons]
          simp only [GenEvent.isStoreFor, if_bool_false]
          omega
        · split
          · have := ih (i + 1) w hw hobs hrest
            rw [List.countP_cons]
            simp only [GenEvent.isStoreFor, if_bool_false]
            omega
          · have hw2 : (w.StoreGeneratedChunk c.m_ChunkX c.m_ChunkZ).IsChunkAlreadyGenerated
                x z = false := by
              simp only [cWorld.StoreGeneratedChunk, hw, Bool.or_false, Bool.and_eq_false_iff,
                beq_eq_false_iff_ne]
              by_cases h1 : x = c.m_ChunkX
              · right
                intro h2
                exact hne ⟨h1.symm, h2.symm⟩
              · left
                exact h1
            have hobs2 : (w.StoreGeneratedChunk c.m_ChunkX c.m_ChunkZ).HasInterestedObserver
                x z = true := hobs
            have := ih (i + 1) (w.StoreGeneratedChunk c.m_ChunkX c.m_ChunkZ) hw2 hobs2 hrest
            rw [List.countP_cons]
            simp only [GenEvent.isStoreFor, hbeq, if_bool_false]
            omega

/-- Starting from a queue with no request for (x,z), any positive number of
enqueues of (x,z) leaves exactly one request for (x,z). -/
theorem enqueueNTimes_count_one (q : List cChunkCoords) (x y z : Int)
    (h : q.countP (matchesXZ x z) = 0) :
    ∀ n : Nat, (enqueueNTimes q x y z (n + 1)).countP (matchesXZ x z) = 1 := by
  intro n
  induction n with
  | zero => exact QueueGenerateChunk_count_new q x y z h
  | succ m ihm => exact QueueGenerateChunk_count_stays_one _ x y z ihm

/-- Enqueuing preserves the at-most-one-request-per-coordinate invariant. -/
theorem QueueGenerateChunk_count_le_one (q : List cChunkCoords) (x y z a b : Int)
    (h : q.countP (matchesXZ a b) ≤ 1) :
    (QueueGenerateChunk q x y z).countP (matchesXZ a b) ≤ 1 := by
  unfold QueueGenerateChunk
  split
  · exact h
  · rename_i hany
    rw [List.countP_append]
    by_cases hm : matchesXZ a b ⟨x, y, z⟩ = true
    · have hab : x = a ∧ z = b := by
        simpa [matchesXZ, Bool.and_eq_true, beq_iff_eq] using hm
      obtain ⟨hxa, hzb⟩ := hab
      subst hxa; subst hzb
      have h0 : q.countP (matchesXZ x z) = 0 := by
        rw [List.countP_eq_zero]
        intro c hcq hcm
        exact hany (List.any_eq_true.mpr ⟨c, hcq, hcm⟩)
      simp [h0, List.countP_cons, hm]
    · have hm0 : matchesXZ a b ⟨x, y, z⟩ = false := Bool.eq_false_iff.mpr hm
      simp [List.countP_cons, hm0]
      omega

/-- Claim C2: Enqueue deduplicates by the (x,z) pair alone - an enqueue
whose (x,z) equals a queued request's (x,z) is a no-op regardless of the
vertical coordinate, N enqueues of a coordinate before the worker dequeues
it leave exactly one request for it, the at-most-one-request-per-coordinate
queue invariant is preserved by every enqueue, and a queue holding exactly
one request for a coordinate yields exactly one pipeline run (one store)
for it under normal operation. -/
theorem queueGenerateChunk_dedup :
    (∀ (q : List cChunkCoords) (x y z : Int),
      q.any (matchesXZ x z) = true → QueueGenerateChunk q x y z = q)
    ∧ (∀ (q : List cChunkCoords) (x y z : Int) (n : Nat),
      q.countP (matchesXZ x z) = 0 →
      (enqueueNTimes q x y z (n + 1)).countP (matchesXZ x z) = 1)
    ∧ (∀ (q : List cChunkCoords) (x y z a b : Int),
      q.countP (matchesXZ a b) ≤ 1 →
      (QueueGenerateChunk q x y z).countP (matchesXZ a b) ≤ 1)
    ∧ (∀ (pipe : Int → Int → Except String ChunkData) (thr : Nat) (stop : Nat → Bool)
      (x z : Int) (d : ChunkData) (q : List cChunkCoords) (i : Nat) (w : cWorld),
      (∀ j, stop j = false) → pipe x z = Except.ok d →
      w.IsChunkAlreadyGenerated x z = false →
      w.HasInterestedObserver x z = true →
      q.countP (matchesXZ x z) = 1 →
      (ExecuteLoop pipe thr stop i w q).countP (GenEvent.isStoreFor x z) = 1) := by
  refine ⟨fun q x y z h => by simp [QueueGenerateChunk, h],
    fun q x y z n h => enqueueNTimes_count_one q x y z h n,
    fun q x y z a b h => QueueGenerateChunk_count_le_one q x y z a b h,
    fun pipe thr stop x z d q i w hstop hpipe hw hobs hcount =>
      store_count_exactly_one pipe thr stop x z d hstop hpipe q i w hw hobs hcount⟩

/-- Concrete instantiation of queueGenerateChunk_dedup: a duplicate enqueue
with a different vertical coordinate is a no-op, three enqueues from an
empty queue leave one request, and a queue with the single request (3,4)
yields exactly one store for (3,4). -/
theorem queueGenerateChunk_dedup_witness :
    QueueGenerateChunk [⟨1, 0, 2⟩] 1 5 2 = [⟨1, 0, 2⟩]
    ∧ (enqueueNTimes [] 1 0 2 3).countP (matchesXZ 1 2) = 1
    ∧ (ExecuteLoop (okPipe sampleGen) 1000 (fun _ => false) 0 freshWorld
        [⟨3, 0, 4⟩]).countP (GenEvent.isStoreFor 3 4) = 1 :=
  ⟨queueGenerateChunk_dedup.1 [⟨1, 0, 2⟩] 1 5 2 (by decide),
   queueGenerateChunk_dedup.2.1 [] 1 0 2 2 (by decide),
   queueGenerateChunk_dedup.2.2.2 (okPipe sampleGen) 1000 (fun _ => false) 3 4
     (sampleGen.DoGenerate 3 0 4) [⟨3, 0, 4⟩] 0 freshWorld
     (fun _ => rfl) rfl (by decide) (by decide) (by decide)⟩

end Cuberite
